import Mathlib

/-!
Verification of the Nova admin client (nova/adminclient.py) against its
natural-language specification.

The record callback protocol (`UserInfo.endElement`, `ProjectInfo.endElement`,
`HostInfo.endElement`), the facade operations of `NovaAdminClient`, and the
base64 binary-field mapping are translated directly from the source.  The
streaming decode drivers (boto's `get_object` / `get_list` / `get_status`) are
not part of this repository; they are modelled from the specification's
decoder contracts (spec section 4.1) and marked as such.

Python objects are modelled as attribute bags: association lists from
attribute names to values, with `setattr` / `getattr` giving Python's
attribute assignment and lookup (a `getattr` returning `none` corresponds to
an `AttributeError`).  Python's `None` value is `AttrValue.none`; byte strings
are lists of naturals below 256.
-/

/-- A Python attribute value as it occurs on the record objects of the
client: `None`, a text string, a byte string (the base64-decoded credential
blob), or the back-reference to the connection that produced the record. -/
inductive AttrValue where
  | none : AttrValue
  | str : String → AttrValue
  | bytes : List Nat → AttrValue
  | conn : AttrValue
deriving DecidableEq, Repr

/-- A Python object modelled as an attribute bag: an association list from
attribute names to values. -/
abbrev Obj := List (String × AttrValue)

/-- Python attribute assignment `setattr(o, n, v)`: replace the binding for
`n` if present, otherwise append it. -/
def setattr : Obj → String → AttrValue → Obj
  | [], n, v => [(n, v)]
  | (m, w) :: rest, n, v =>
      if m = n then (n, v) :: rest else (m, w) :: setattr rest n v

/-- Python attribute lookup: `some v` when the attribute is defined,
`none` when lookup would raise `AttributeError`. -/
def getattr : Obj → String → Option AttrValue
  | [], _ => Option.none
  | (m, w) :: rest, n => if m = n then some w else getattr rest n

/-- One SAX event of the decoded XML response stream: an element start, or an
element end carrying the accumulated text of the element. -/
inductive SaxEvent where
  | startE : String → SaxEvent
  | endE : String → String → SaxEvent
deriving DecidableEq, Repr

/-- The tag name of a SAX event. -/
def SaxEvent.tag : SaxEvent → String
  | .startE n => n
  | .endE n _ => n

/-- The text of the last end-element event named `n` in the stream, if any
(last assignment wins, as in the SAX replay onto a mutable object). -/
def lastVal : List SaxEvent → String → Option String
  | [], _ => Option.none
  | SaxEvent.startE _ :: rest, n => lastVal rest n
  | SaxEvent.endE m v :: rest, n =>
      match lastVal rest n with
      | some w => some w
      | Option.none => if m = n then some v else Option.none

/-! ### Base64 (Python `base64.b64encode` / `base64.b64decode`) -/

/-- The base64 alphabet: sextet value to character. -/
def b64index (n : Nat) : Char :=
  if n < 26 then Char.ofNat (65 + n)
  else if n < 52 then Char.ofNat (71 + n)
  else if n < 62 then Char.ofNat (n - 4)
  else if n = 62 then '+'
  else '/'

/-- The base64 alphabet: character to sextet value. -/
def b64val (ch : Char) : Nat :=
  let k := ch.toNat
  if 65 ≤ k ∧ k ≤ 90 then k - 65
  else if 97 ≤ k ∧ k ≤ 122 then k - 71
  else if 48 ≤ k ∧ k ≤ 57 then k + 4
  else if k = 43 then 62
  else if k = 47 then 63
  else 0

/-- Standard base64 encoding of a byte sequence, with `=` padding, as
performed by Python's `base64.b64encode`. -/
def b64encode : List Nat → List Char
  | [] => []
  | [a] => [b64index (a / 4), b64index (a % 4 * 16), '=', '=']
  | [a, b] =>
      [b64index (a / 4), b64index (a % 4 * 16 + b / 16), b64index (b % 16 * 4), '=']
  | a :: b :: c :: rest =>
      b64index (a / 4) :: b64index (a % 4 * 16 + b / 16) ::
        b64index (b % 16 * 4 + c / 64) :: b64index (c % 64) :: b64encode rest

/-- Standard base64 decoding of a padded character sequence, as performed by
Python's `base64.b64decode` on well-formed input. -/
def b64decode : List Char → List Nat
  | c1 :: c2 :: c3 :: c4 :: rest =>
      if c3 = '=' then [b64val c1 * 4 + b64val c2 / 16]
      else if c4 = '=' then
        [b64val c1 * 4 + b64val c2 / 16, b64val c2 % 16 * 16 + b64val c3 / 4]
      else
        (b64val c1 * 4 + b64val c2 / 16) :: (b64val c2 % 16 * 16 + b64val c3 / 4) ::
          (b64val c3 % 4 * 64 + b64val c4) :: b64decode rest
  | _ => []

/-! ### Record types (from src/nova/adminclient.py) -/

/-- A fresh `UserInfo(connection)` as built by the decoder: `__init__` defines
exactly the `connection`, `username` and `endpoint` attributes, the latter two
defaulting to `None`. -/
def UserInfo.init : Obj :=
  [("connection", AttrValue.conn), ("username", AttrValue.none),
   ("endpoint", AttrValue.none)]

/-- `UserInfo.endElement`: `username`, `accesskey` and `secretkey` are
assigned as text, `file` is base64-decoded to bytes, and every other tag is
ignored (no else branch in the source). -/
def UserInfo.endElement (o : Obj) (name value : String) : Obj :=
  if name = "username" then setattr o "username" (AttrValue.str value)
  else if name = "file" then setattr o "file" (AttrValue.bytes (b64decode value.data))
  else if name = "accesskey" then setattr o "accesskey" (AttrValue.str value)
  else if name = "secretkey" then setattr o "secretkey" (AttrValue.str value)
  else o

/-- A fresh `ProjectInfo(connection)`: defines `connection`, `projectname`
and `endpoint`, the latter two defaulting to `None`. -/
def ProjectInfo.init : Obj :=
  [("connection", AttrValue.conn), ("projectname", AttrValue.none),
   ("endpoint", AttrValue.none)]

/-- `ProjectInfo.endElement`: `setattr(self, name, str(value))` — every tag is
assigned dynamically under its own name. -/
def ProjectInfo.endElement (o : Obj) (name value : String) : Obj :=
  setattr o name (AttrValue.str value)

/-- A fresh `HostInfo(connection)`: defines `connection` and `hostname`
(defaulting to `None`). -/
def HostInfo.init : Obj :=
  [("connection", AttrValue.conn), ("hostname", AttrValue.none)]

/-- `HostInfo.endElement`: `setattr(self, name, value)` — every tag is
assigned dynamically under its own name. -/
def HostInfo.endElement (o : Obj) (name value : String) : Obj :=
  setattr o name (AttrValue.str value)

/-! ### Decoder drivers (modelled from the spec, section 4.1) -/

/-- Modelled from the spec: the streaming single-object decode loop of boto's
`get_object` (not part of this repository).  Element starts are no-ops (every
record type's `startElement` returns `None`); each element end is replayed
onto the object through the record type's `endElement`. -/
def decode_events (step : Obj → String → String → Obj) : Obj → List SaxEvent → Obj
  | o, [] => o
  | o, SaxEvent.startE _ :: rest => decode_events step o rest
  | o, SaxEvent.endE n v :: rest => decode_events step (step o n v) rest

/-- Modelled from the spec: `decode_single(stream, T)` — replay the whole
event stream onto a fresh instance of the record type and return it. -/
def decode_single (init : Obj) (step : Obj → String → String → Obj)
    (events : List SaxEvent) : Obj :=
  decode_events step init events

/-- Modelled from the spec: the list-decode state machine of boto's
`get_list`.  A start of `tag` opens a fresh record; events inside an open
record are replayed onto it as in `decode_single`; an end of `tag` emits the
record; events outside any record are ignored. -/
def decode_list_go (tag : String) (init : Obj) (step : Obj → String → String → Obj) :
    List SaxEvent → Option Obj → List Obj
  | [], Option.none => []
  | [], some cur => [cur]
  | SaxEvent.startE n :: rest, Option.none =>
      if n = tag then decode_list_go tag init step rest (some init)
      else decode_list_go tag init step rest Option.none
  | SaxEvent.startE n :: rest, some cur =>
      if n = tag then cur :: decode_list_go tag init step rest (some init)
      else decode_list_go tag init step rest (some cur)
  | SaxEvent.endE _ _ :: rest, Option.none => decode_list_go tag init step rest Option.none
  | SaxEvent.endE n v :: rest, some cur =>
      if n = tag then cur :: decode_list_go tag init step rest Option.none
      else decode_list_go tag init step rest (some (step cur n v))

/-- Modelled from the spec: `decode_list(stream, itemTag, T)` — every
top-level `itemTag` element bounds one record, produced in document order. -/
def decode_list (tag : String) (init : Obj) (step : Obj → String → String → Obj)
    (events : List SaxEvent) : List Obj :=
  decode_list_go tag init step events Option.none

/-- The event stream of one `item` element: its start, the end events of its
child elements, and its own end. -/
def itemEvents (b : List (String × String)) : List SaxEvent :=
  SaxEvent.startE "item" ::
    ((b.map fun p => SaxEvent.endE p.1 p.2) ++ [SaxEvent.endE "item" ""])

/-- A document consisting of a sequence of `item` elements, each given by the
end events of its children. -/
def itemDoc : List (List (String × String)) → List SaxEvent
  | [] => []
  | b :: rest => itemEvents b ++ itemDoc rest

/-- The error kinds of the specification's error model (section 7), plus the
attribute-lookup failure of Python itself. -/
inductive Err where
  | UnknownUserKind : Err
  | AttributeError : Err
  | MissingStatusKind : Err
deriving DecidableEq, Repr

/-- Characterwise ASCII case normalization of an element text. -/
def lowerStr (s : String) : String :=
  String.mk (s.data.map Char.toLower)

/-- Modelled from the spec: `decode_status(stream)` — the text of the
`return` element, case-normalized, determines the boolean; a stream with no
`return` element is `MissingStatusKind`, never a default `false`. -/
def decode_status (events : List SaxEvent) : Except Err Bool :=
  match lastVal events "return" with
  | some t => Except.ok (lowerStr t == "true")
  | Option.none => Except.error Err.MissingStatusKind

/-! ### Transport configuration and the admin client facade -/

/-- boto `RegionInfo(None, name, endpoint)` as used at the two call sites. -/
structure RegionInfo where
  name : String
  endpoint : String
deriving DecidableEq, Repr

/-- The transport configuration produced by `boto.connect_ec2` at the two
call sites of the source (insecure, fixed port, explicit service path). -/
structure EC2Connection where
  access_key : String
  secret_key : String
  is_secure : Bool
  region : RegionInfo
  port : Nat
  path : String
  APIVersion : String
deriving DecidableEq, Repr

/-- Modelled from the spec: `boto.connect_ec2` (not part of this repository)
constructs a transport configuration from the keyword arguments the source
passes it; it performs no network call by itself. -/
def connect_ec2 (aws_access_key_id aws_secret_access_key : String)
    (region : RegionInfo) (port : Nat) (path : String) : EC2Connection :=
  { access_key := aws_access_key_id, secret_key := aws_secret_access_key,
    is_secure := false, region := region, port := port, path := path,
    APIVersion := "" }

/-- The admin client: the configuration fields set once by `__init__` and the
transport connection constructed there. -/
structure NovaAdminClient where
  clc_ip : String
  region : String
  access : String
  secret : String
  apiconn : EC2Connection
deriving DecidableEq, Repr

/-- `NovaAdminClient.__init__`: store the configuration, build the admin
transport against `/services/Admin` on port 8773, and set its API version. -/
def NovaAdminClient.new (clc_ip region access_key secret_key : String) :
    NovaAdminClient :=
  let conn := connect_ec2 access_key secret_key
    { name := region, endpoint := clc_ip } 8773 "/services/Admin"
  { clc_ip := clc_ip, region := region, access := access_key,
    secret := secret_key, apiconn := { conn with APIVersion := "nova" } }

/-- One transport interaction performed by a facade operation: the remote
action (or connection construction), the service path it is addressed to, and
the flat parameter mapping (`Option.none` is Python `None`). -/
structure TransportCall where
  action : String
  path : String
  params : List (String × Option String)
deriving DecidableEq, Repr

/-- The outcome of one facade operation: its value, the transport
interactions it performed, and the client instance it leaves behind. -/
structure OpResult (α : Type) where
  value : α
  calls : List TransportCall
  client : NovaAdminClient
deriving DecidableEq, Repr

/-- `get_users`: decode a list of `UserInfo` records from the `item` elements
of a `DescribeUsers` response. -/
def get_users (c : NovaAdminClient) (events : List SaxEvent) :
    OpResult (List Obj) :=
  { value := decode_list "item" UserInfo.init UserInfo.endElement events,
    calls := [{ action := "DescribeUsers", path := c.apiconn.path, params := [] }],
    client := c }

/-- `get_user`: decode a single `UserInfo` from the `DescribeUser` response
and return it only when `user.username != None`; otherwise the method falls
off the end and returns `None` (an absent result). -/
def get_user (c : NovaAdminClient) (name : String) (events : List SaxEvent) :
    OpResult (Option Obj) :=
  let user := decode_single UserInfo.init UserInfo.endElement events
  { value := if getattr user "username" = some AttrValue.none then Option.none
             else some user,
    calls := [{ action := "DescribeUser", path := c.apiconn.path,
                params := [("Name", some name)] }],
    client := c }

/-- `has_user`: `get_user(username) != None`. -/
def has_user (c : NovaAdminClient) (name : String) (events : List SaxEvent) :
    OpResult Bool :=
  let r := get_user c name events
  { value := r.value.isSome, calls := r.calls, client := r.client }

/-- `create_user`: decode the `RegisterUser` response as a `UserInfo`. -/
def create_user (c : NovaAdminClient) (name : String) (events : List SaxEvent) :
    OpResult Obj :=
  { value := decode_single UserInfo.init UserInfo.endElement events,
    calls := [{ action := "RegisterUser", path := c.apiconn.path,
                params := [("Name", some name)] }],
    client := c }

/-- `delete_user`: decode the `DeregisterUser` response as a `UserInfo`. -/
def delete_user (c : NovaAdminClient) (name : String) (events : List SaxEvent) :
    OpResult Obj :=
  { value := decode_single UserInfo.init UserInfo.endElement events,
    calls := [{ action := "DeregisterUser", path := c.apiconn.path,
                params := [("Name", some name)] }],
    client := c }

/-- `modify_user_role`: the shared role-modification operation, a
status-shaped `ModifyUserRole` call parameterized by the operation kind. -/
def modify_user_role (c : NovaAdminClient) (user role : String)
    (project : Option String) (operation : String) (events : List SaxEvent) :
    OpResult (Except Err Bool) :=
  { value := decode_status events,
    calls := [{ action := "ModifyUserRole", path := c.apiconn.path,
                params := [("User", some user), ("Role", some role),
                           ("Project", project), ("Operation", some operation)] }],
    client := c }

/-- `add_user_role`: `modify_user_role(user, role, project, operation='add')`. -/
def add_user_role (c : NovaAdminClient) (user role : String)
    (project : Option String) (events : List SaxEvent) :
    OpResult (Except Err Bool) :=
  modify_user_role c user role project "add" events

/-- `remove_user_role`: `modify_user_role(..., operation='remove')`. -/
def remove_user_role (c : NovaAdminClient) (user role : String)
    (project : Option String) (events : List SaxEvent) :
    OpResult (Except Err Bool) :=
  modify_user_role c user role project "remove" events

/-- `get_projects`: decode a list of `ProjectInfo` records. -/
def get_projects (c : NovaAdminClient) (events : List SaxEvent) :
    OpResult (List Obj) :=
  { value := decode_list "item" ProjectInfo.init ProjectInfo.endElement events,
    calls := [{ action := "DescribeProjects", path := c.apiconn.path, params := [] }],
    client := c }

/-- `get_project`: decode a single `ProjectInfo` and return it only when
`project.projectname != None`. -/
def get_project (c : NovaAdminClient) (name : String) (events : List SaxEvent) :
    OpResult (Option Obj) :=
  let project := decode_single ProjectInfo.init ProjectInfo.endElement events
  { value := if getattr project "projectname" = some AttrValue.none then Option.none
             else some project,
    calls := [{ action := "DescribeProject", path := c.apiconn.path,
                params := [("Name", some name)] }],
    client := c }

/-- `create_project`: a `RegisterProject` call decoded as a `ProjectInfo`. -/
def create_project (c : NovaAdminClient) (projectname manager_user : String)
    (description member_users : Option String) (events : List SaxEvent) :
    OpResult Obj :=
  { value := decode_single ProjectInfo.init ProjectInfo.endElement events,
    calls := [{ action := "RegisterProject", path := c.apiconn.path,
                params := [("Name", some projectname),
                           ("ManagerUser", some manager_user),
                           ("Description", description),
                           ("MemberUsers", member_users)] }],
    client := c }

/-- `delete_project`: a `DeregisterProject` call decoded as a `ProjectInfo`. -/
def delete_project (c : NovaAdminClient) (projectname : String)
    (events : List SaxEvent) : OpResult Obj :=
  { value := decode_single ProjectInfo.init ProjectInfo.endElement events,
    calls := [{ action := "DeregisterProject", path := c.apiconn.path,
                params := [("Name", some projectname)] }],
    client := c }

/-- `modify_project_user`: the shared membership-modification operation, a
status-shaped `ModifyProjectUser` call parameterized by the operation kind. -/
def modify_project_user (c : NovaAdminClient) (user project operation : String)
    (events : List SaxEvent) : OpResult (Except Err Bool) :=
  { value := decode_status events,
    calls := [{ action := "ModifyProjectUser", path := c.apiconn.path,
                params := [("User", some user), ("Project", some project),
                           ("Operation", some operation)] }],
    client := c }

/-- `get_zip`: decode the `GenerateX509ForUser` response as a `UserInfo` and
return its `file` attribute; a record without that attribute raises
`AttributeError`. -/
def get_zip (c : NovaAdminClient) (name : String) (events : List SaxEvent) :
    OpResult (Except Err AttrValue) :=
  let user := decode_single UserInfo.init UserInfo.endElement events
  { value := match getattr user "file" with
             | some v => Except.ok v
             | Option.none => Except.error Err.AttributeError,
    calls := [{ action := "GenerateX509ForUser", path := c.apiconn.path,
                params := [("Name", some name)] }],
    client := c }

/-- `get_hosts`: decode a list of `HostInfo` records. -/
def get_hosts (c : NovaAdminClient) (events : List SaxEvent) :
    OpResult (List Obj) :=
  { value := decode_list "item" HostInfo.init HostInfo.endElement events,
    calls := [{ action := "DescribeHosts", path := c.apiconn.path, params := [] }],
    client := c }

/-- `connection_for`: resolve the user via `get_user`, then build a second
transport against `/services/Cloud` from the resolved credentials.  When
`get_user` yields an absent result, evaluating `user.accesskey` on `None`
fails before any per-user transport is constructed — the failure the spec
names `UnknownUserKind`.  The construction of the per-user transport is
recorded as a `connect_ec2` interaction with path `/services/Cloud`, since it
is the only conduit through which the per-user service path can be reached. -/
def connection_for (c : NovaAdminClient) (username : String)
    (events : List SaxEvent) : OpResult (Except Err EC2Connection) :=
  let u := get_user c username events
  let r : Except Err EC2Connection × List TransportCall :=
    match u.value with
    | Option.none => (Except.error Err.UnknownUserKind, [])
    | some user =>
      match getattr user "accesskey", getattr user "secretkey" with
      | some (AttrValue.str ak), some (AttrValue.str sk) =>
          (Except.ok (connect_ec2 ak sk { name := c.region, endpoint := c.clc_ip }
              8773 "/services/Cloud"),
           [{ action := "connect_ec2", path := "/services/Cloud", params := [] }])
      | _, _ => (Except.error Err.AttributeError, [])
  { value := r.1, calls := u.calls ++ r.2, client := c }

/-! ### Attribute-bag lemmas -/

theorem getattr_setattr (o : Obj) (m n : String) (v : AttrValue) :
    getattr (setattr o m v) n = if m = n then some v else getattr o n := by
  induction o with
  | nil =>
    by_cases h : m = n <;> simp [setattr, getattr, h]
  | cons hd tl ih =>
    obtain ⟨k, w⟩ := hd
    by_cases hk : k = m
    · subst hk
      by_cases h : k = n <;> simp [setattr, getattr, h]
    · by_cases h : k = n
      · subst h
        have hm : ¬ m = k := fun hc => hk hc.symm
        simp [setattr, getattr, hk, hm]
      · simp [setattr, getattr, hk, h, ih]

theorem getattr_setattr_self (o : Obj) (n : String) (v : AttrValue) :
    getattr (setattr o n v) n = some v := by
  simp [getattr_setattr]

theorem getattr_setattr_ne (o : Obj) (m n : String) (v : AttrValue) (h : m ≠ n) :
    getattr (setattr o m v) n = getattr o n := by
  simp [getattr_setattr, h]

/-! ### Base64 lemmas -/

theorem b64val_b64index : ∀ n, n < 64 → b64val (b64index n) = n := by decide

theorem b64index_ne_pad : ∀ n, n < 64 → b64index n ≠ '=' := by decide

theorem b64decode_b64encode : ∀ bs : List Nat, (∀ x ∈ bs, x < 256) →
    b64decode (b64encode bs) = bs
  | [] => fun _ => rfl
  | [a] => fun h => by
      have ha : a < 256 := h a (by simp)
      have h1 : a / 4 < 64 := by omega
      have h2 : a % 4 * 16 < 64 := by omega
      simp only [b64encode, b64decode]
      rw [b64val_b64index _ h1, b64val_b64index _ h2]
      simp
      omega
  | [a, b] => fun h => by
      have ha : a < 256 := h a (by simp)
      have hb : b < 256 := h b (by simp)
      have h1 : a / 4 < 64 := by omega
      have h2 : a % 4 * 16 + b / 16 < 64 := by omega
      have h3 : b % 16 * 4 < 64 := by omega
      simp only [b64encode, b64decode]
      rw [if_neg (b64index_ne_pad _ h3)]
      rw [b64val_b64index _ h1, b64val_b64index _ h2, b64val_b64index _ h3]
      simp
      omega
  | a :: b :: c :: rest => fun h => by
      have ha : a < 256 := h a (by simp)
      have hb : b < 256 := h b (by simp)
      have hc : c < 256 := h c (by simp)
      have ih := b64decode_b64encode rest (fun x hx => h x (by simp [hx]))
      have h1 : a / 4 < 64 := by omega
      have h2 : a % 4 * 16 + b / 16 < 64 := by omega
      have h3 : b % 16 * 4 + c / 64 < 64 := by omega
      have h4 : c % 64 < 64 := by omega
      simp only [b64encode, b64decode]
      rw [if_neg (b64index_ne_pad _ h3), if_neg (b64index_ne_pad _ h4)]
      rw [b64val_b64index _ h1, b64val_b64index _ h2, b64val_b64index _ h3,
          b64val_b64index _ h4, ih]
      simp
      omega

/-! ### Decode characterization lemmas -/

theorem getattr_decode_dyn (step : Obj → String → String → Obj)
    (hstep : ∀ o n v, step o n v = setattr o n (AttrValue.str v)) :
    ∀ (events : List SaxEvent) (o : Obj) (n : String),
      getattr (decode_events step o events) n =
        match lastVal events n with
        | some v => some (AttrValue.str v)
        | Option.none => getattr o n := by
  intro events
  induction events with
  | nil => intro o n; rfl
  | cons e rest ih =>
    intro o n
    cases e with
    | startE m =>
      simp only [decode_events, lastVal]
      exact ih o n
    | endE m v =>
      simp only [decode_events, lastVal, hstep]
      rw [ih]
      cases hl : lastVal rest n with
      | some w => simp [hl]
      | none =>
        by_cases hm : m = n
        · subst hm
          simp [hl, getattr_setattr_self]
        · simp [hl, hm, getattr_setattr_ne _ _ _ _ hm]

theorem userEnd_getattr_ne (o : Obj) (m v n : String) (hn : m ≠ n) :
    getattr (UserInfo.endElement o m v) n = getattr o n := by
  unfold UserInfo.endElement
  split_ifs with h1 h2 h3 h4
  · subst h1; exact getattr_setattr_ne _ _ _ _ hn
  · subst h2; exact getattr_setattr_ne _ _ _ _ hn
  · subst h3; exact getattr_setattr_ne _ _ _ _ hn
  · subst h4; exact getattr_setattr_ne _ _ _ _ hn
  · rfl

theorem userEnd_unmapped (o : Obj) (m v : String)
    (h1 : m ≠ "username") (h2 : m ≠ "file") (h3 : m ≠ "accesskey")
    (h4 : m ≠ "secretkey") :
    UserInfo.endElement o m v = o := by
  simp [UserInfo.endElement, h1, h2, h3, h4]

theorem getattr_decode_user_str (fld : String)
    (hf : fld = "username" ∨ fld = "accesskey" ∨ fld = "secretkey") :
    ∀ (events : List SaxEvent) (o : Obj),
      getattr (decode_events UserInfo.endElement o events) fld =
        match lastVal events fld with
        | some v => some (AttrValue.str v)
        | Option.none => getattr o fld := by
  intro events
  induction events with
  | nil => intro o; rfl
  | cons e rest ih =>
    intro o
    cases e with
    | startE m =>
      simp only [decode_events, lastVal]
      exact ih o
    | endE m v =>
      simp only [decode_events, lastVal]
      rw [ih]
      by_cases hm : m = fld
      · have hstep : UserInfo.endElement o m v = setattr o fld (AttrValue.str v) := by
          subst hm
          rcases hf with h | h | h <;> subst h <;> simp [UserInfo.endElement]
        rw [hstep]
        cases hl : lastVal rest fld with
        | some w => simp [hl]
        | none => simp [hl, hm, getattr_setattr_self]
      · rw [userEnd_getattr_ne o m v fld hm]
        cases hl : lastVal rest fld with
        | some w => simp [hl]
        | none => simp [hl, hm]

theorem getattr_decode_user_file :
    ∀ (events : List SaxEvent) (o : Obj),
      getattr (decode_events UserInfo.endElement o events) "file" =
        match lastVal events "file" with
        | some v => some (AttrValue.bytes (b64decode v.data))
        | Option.none => getattr o "file" := by
  intro events
  induction events with
  | nil => intro o; rfl
  | cons e rest ih =>
    intro o
    cases e with
    | startE m =>
      simp only [decode_events, lastVal]
      exact ih o
    | endE m v =>
      simp only [decode_events, lastVal]
      rw [ih]
      by_cases hm : m = "file"
      · have hstep : UserInfo.endElement o m v =
            setattr o "file" (AttrValue.bytes (b64decode v.data)) := by
          subst hm
          simp [UserInfo.endElement]
        rw [hstep]
        cases hl : lastVal rest "file" with
        | some w => simp [hl]
        | none => simp [hl, hm, getattr_setattr_self]
      · rw [userEnd_getattr_ne o m v "file" hm]
        cases hl : lastVal rest "file" with
        | some w => simp [hl]
        | none => simp [hl, hm]

theorem getattr_decode_user_unmapped (fld : String)
    (h1 : fld ≠ "username") (h2 : fld ≠ "file") (h3 : fld ≠ "accesskey")
    (h4 : fld ≠ "secretkey") :
    ∀ (events : List SaxEvent) (o : Obj),
      getattr (decode_events UserInfo.endElement o events) fld = getattr o fld := by
  intro events
  induction events with
  | nil => intro o; rfl
  | cons e rest ih =>
    intro o
    cases e with
    | startE m =>
      simp only [decode_events]
      exact ih o
    | endE m v =>
      simp only [decode_events]
      rw [ih]
      by_cases hm : m = fld
      · subst hm
        rw [userEnd_unmapped o _ v h1 h2 h3 h4]
      · exact userEnd_getattr_ne o m v fld hm

/-! ### List-decode lemmas -/

theorem decode_list_go_block (init : Obj) (step : Obj → String → String → Obj) :
    ∀ (b : List (String × String)) (rest : List SaxEvent) (cur : Obj),
      (∀ p ∈ b, p.1 ≠ "item") →
      decode_list_go "item" init step
          ((b.map fun p => SaxEvent.endE p.1 p.2) ++ SaxEvent.endE "item" "" :: rest)
          (some cur)
        = decode_events step cur (b.map fun p => SaxEvent.endE p.1 p.2) ::
            decode_list_go "item" init step rest Option.none := by
  intro b
  induction b with
  | nil =>
    intro rest cur _
    simp [decode_list_go, decode_events]
  | cons p b ih =>
    intro rest cur hb
    have hp : p.1 ≠ "item" := hb p (by simp)
    simp only [List.map_cons, List.cons_append, decode_list_go, decode_events]
    rw [if_neg hp]
    exact ih rest (step cur p.1 p.2) (fun q hq => hb q (by simp [hq]))

theorem decode_list_go_no_item (init : Obj) (step : Obj → String → String → Obj) :
    ∀ events : List SaxEvent, (∀ e ∈ events, SaxEvent.tag e ≠ "item") →
      decode_list_go "item" init step events Option.none = [] := by
  intro events
  induction events with
  | nil => intro _; rfl
  | cons e rest ih =>
    intro h
    cases e with
    | startE m =>
      have hm : m ≠ "item" := h (SaxEvent.startE m) (by simp) 
      simp only [decode_list_go]
      rw [if_neg hm]
      exact ih (fun x hx => h x (by simp [hx]))
    | endE m v =>
      simp only [decode_list_go]
      exact ih (fun x hx => h x (by simp [hx]))

theorem decode_list_itemDoc (init : Obj) (step : Obj → String → String → Obj) :
    ∀ blocks : List (List (String × String)),
      (∀ b ∈ blocks, ∀ p ∈ b, p.1 ≠ "item") →
      decode_list "item" init step (itemDoc blocks)
        = blocks.map fun b =>
            decode_single init step (b.map fun p => SaxEvent.endE p.1 p.2) := by
  intro blocks
  induction blocks with
  | nil => intro _; rfl
  | cons b rest ih =>
    intro h
    have hb : ∀ p ∈ b, p.1 ≠ "item" := h b (by simp)
    have e : itemDoc (b :: rest) = SaxEvent.startE "item" ::
        ((b.map fun p => SaxEvent.endE p.1 p.2) ++ SaxEvent.endE "item" "" :: itemDoc rest) := by
      simp [itemDoc, itemEvents]
    unfold decode_list
    rw [e]
    simp only [decode_list_go, if_true]
    rw [decode_list_go_block init step b (itemDoc rest) init hb]
    have hrest := ih (fun b' hb' => h b' (by simp [hb']))
    unfold decode_list at hrest
    rw [hrest]
    rfl

/-! ### Facade helper lemmas -/

theorem get_user_value (c : NovaAdminClient) (name : String) (events : List SaxEvent) :
    (get_user c name events).value =
      if getattr (decode_single UserInfo.init UserInfo.endElement events) "username"
          = some AttrValue.none then Option.none
      else some (decode_single UserInfo.init UserInfo.endElement events) := rfl

/-! ### Claim theorems -/

/-- Claim C1, counterexample: a `DescribeUser` response whose `username`
element has empty text decodes to a record with an empty name string, and
`get_user` returns that record — not an absent result — because the source
only compares the field against `None`. -/
theorem get_user_empty_username_cex :
    (get_user (NovaAdminClient.new "127.0.0.1" "nova" "admin" "admin") "joe"
        [SaxEvent.endE "username" ""]).value ≠ Option.none ∧
    getattr (decode_single UserInfo.init UserInfo.endElement
        [SaxEvent.endE "username" ""]) "username" = some (AttrValue.str "") := by
  exact ⟨by decide, by decide⟩

/-- Claim C1, amended: `get_user` returns an absent result exactly when the
`username` field is unset (still `None`) after decoding, i.e. when no
`username` element occurred in the response; whenever a `username` element
occurred — even with empty text — `get_user` returns the decoded record. -/
theorem get_user_absent_iff_username_unset (c : NovaAdminClient) (name : String)
    (events : List SaxEvent) :
    (lastVal events "username" = Option.none →
      (get_user c name events).value = Option.none) ∧
    (∀ s, lastVal events "username" = some s →
      (get_user c name events).value =
        some (decode_single UserInfo.init UserInfo.endElement events)) := by
  have hc := getattr_decode_user_str "username" (Or.inl rfl) events UserInfo.init
  constructor
  · intro h
    have hval : getattr (decode_single UserInfo.init UserInfo.endElement events)
        "username" = some AttrValue.none := by
      unfold decode_single
      rw [hc, h]
      rfl
    rw [get_user_value, if_pos hval]
  · intro s h
    have hval : getattr (decode_single UserInfo.init UserInfo.endElement events)
        "username" = some (AttrValue.str s) := by
      unfold decode_single
      rw [hc, h]
    rw [get_user_value, hval]
    simp

/-- Witness for the amended C1 theorem at concrete inputs. -/
theorem get_user_absent_iff_username_unset_witness :
    (get_user (NovaAdminClient.new "127.0.0.1" "nova" "admin" "admin") "joe"
        []).value = Option.none ∧
    (get_user (NovaAdminClient.new "127.0.0.1" "nova" "admin" "admin") "joe"
        [SaxEvent.endE "username" "bob"]).value =
      some (decode_single UserInfo.init UserInfo.endElement
        [SaxEvent.endE "username" "bob"]) := by
  exact ⟨(get_user_absent_iff_username_unset _ "joe" []).1 (by decide),
         (get_user_absent_iff_username_unset _ "joe" _).2 "bob" (by decide)⟩

/-- Claim C2: when `get_user` resolves to an absent result, `connection_for`
fails with `UnknownUserKind` (the failure raised before the per-user
transport is built) and none of its transport interactions addresses the
per-user service path `/services/Cloud`. -/
theorem connection_for_unknown_user (clc_ip region ak sk uname : String)
    (events : List SaxEvent)
    (h : (get_user (NovaAdminClient.new clc_ip region ak sk) uname events).value
          = Option.none) :
    (connection_for (NovaAdminClient.new clc_ip region ak sk) uname events).value
        = Except.error Err.UnknownUserKind ∧
    ∀ call ∈ (connection_for (NovaAdminClient.new clc_ip region ak sk) uname
        events).calls, call.path ≠ "/services/Cloud" := by
  have hcalls : (connection_for (NovaAdminClient.new clc_ip region ak sk) uname
      events).calls
      = [{ action := "DescribeUser", path := "/services/Admin",
           params := [("Name", some uname)] }] := by
    simp only [connection_for]
    rw [h]
    simp [get_user, NovaAdminClient.new, connect_ec2]
  constructor
  · simp only [connection_for]
    rw [h]
  · intro call hcIn
    rw [hcalls] at hcIn
    simp only [List.mem_singleton] at hcIn
    subst hcIn
    simp

/-- Witness for the C2 theorem at a concrete input. -/
theorem connection_for_unknown_user_witness :
    (connection_for (NovaAdminClient.new "127.0.0.1" "nova" "admin" "admin")
        "ghost" []).value = Except.error Err.UnknownUserKind := by
  exact (connection_for_unknown_user "127.0.0.1" "nova" "admin" "admin" "ghost" []
    (by decide)).1

/-- Claim C3, counterexample: decoding a document with the unmapped tag
`description` into a `UserRecord` drops the tag — the attribute is not
defined afterwards — instead of assigning it dynamically. -/
theorem decode_unmapped_user_dropped_cex :
    getattr (decode_single UserInfo.init UserInfo.endElement
        [SaxEvent.endE "description" "a project"]) "description" = Option.none ∧
    getattr (decode_single UserInfo.init UserInfo.endElement
        [SaxEvent.endE "description" "a project"]) "description"
      ≠ some (AttrValue.str "a project") := by
  exact ⟨by decide, by decide⟩

/-- Claim C3, amended: decoding assigns each mapped tag's decoded
text/binary value to the corresponding attribute of `UserRecord`, and for
`ProjectRecord` and `HostRecord` every tag's raw text is assigned as a
dynamically named attribute; for `UserRecord`, unmapped tags are dropped (the
record keeps exactly its initial attributes under every other name). -/
theorem decode_fieldmap_amended (events : List SaxEvent) (n v : String) :
    (lastVal events n = some v →
      (n = "username" ∨ n = "accesskey" ∨ n = "secretkey") →
      getattr (decode_single UserInfo.init UserInfo.endElement events) n
        = some (AttrValue.str v)) ∧
    (lastVal events "file" = some v →
      getattr (decode_single UserInfo.init UserInfo.endElement events) "file"
        = some (AttrValue.bytes (b64decode v.data))) ∧
    (n ≠ "username" → n ≠ "file" → n ≠ "accesskey" → n ≠ "secretkey" →
      getattr (decode_single UserInfo.init UserInfo.endElement events) n
        = getattr UserInfo.init n) ∧
    (lastVal events n = some v →
      getattr (decode_single ProjectInfo.init ProjectInfo.endElement events) n
        = some (AttrValue.str v)) ∧
    (lastVal events n = some v →
      getattr (decode_single HostInfo.init HostInfo.endElement events) n
        = some (AttrValue.str v)) := by
  refine ⟨?_, ?_, ?_, ?_, ?_⟩
  · intro h hf
    have hc := getattr_decode_user_str n hf events UserInfo.init
    unfold decode_single
    rw [hc, h]
  · intro h
    have hc := getattr_decode_user_file events UserInfo.init
    unfold decode_single
    rw [hc, h]
  · intro h1 h2 h3 h4
    exact getattr_decode_user_unmapped n h1 h2 h3 h4 events UserInfo.init
  · intro h
    have hc := getattr_decode_dyn ProjectInfo.endElement (fun _ _ _ => rfl)
      events ProjectInfo.init n
    unfold decode_single
    rw [hc, h]
  · intro h
    have hc := getattr_decode_dyn HostInfo.endElement (fun _ _ _ => rfl)
      events HostInfo.init n
    unfold decode_single
    rw [hc, h]

/-- Witness for the amended C3 theorem at concrete inputs. -/
theorem decode_fieldmap_amended_witness :
    getattr (decode_single UserInfo.init UserInfo.endElement
        [SaxEvent.endE "accesskey" "AK"]) "accesskey" = some (AttrValue.str "AK") ∧
    getattr (decode_single ProjectInfo.init ProjectInfo.endElement
        [SaxEvent.endE "description" "proj"]) "description"
      = some (AttrValue.str "proj") := by
  exact ⟨(decode_fieldmap_amended [SaxEvent.endE "accesskey" "AK"] "accesskey"
            "AK").1 (by decide) (Or.inr (Or.inl rfl)),
         (decode_fieldmap_amended [SaxEvent.endE "description" "proj"]
            "description" "proj").2.2.2.1 (by decide)⟩

/-- Claim C4: `decode_status` yields `true` for a `return` element whose text
is `true` up to case, `false` for text `false` up to case, and fails with
`MissingStatusKind` when no `return` element occurred — never a default
`false`; this decoder is exactly the result of the status-shaped operations
`modify_user_role` and `modify_project_user`. -/
theorem decode_status_spec (c : NovaAdminClient) (events : List SaxEvent)
    (t u r op proj : String) (p : Option String) :
    (lastVal events "return" = some t → lowerStr t = "true" →
      decode_status events = Except.ok true) ∧
    (lastVal events "return" = some t → lowerStr t = "false" →
      decode_status events = Except.ok false) ∧
    (lastVal events "return" = Option.none →
      decode_status events = Except.error Err.MissingStatusKind) ∧
    (modify_user_role c u r p op events).value = decode_status events ∧
    (modify_project_user c u proj op events).value = decode_status events := by
  refine ⟨?_, ?_, ?_, rfl, rfl⟩
  · intro h ht
    unfold decode_status
    rw [h]
    simp [ht]
  · intro h ht
    unfold decode_status
    rw [h]
    simp [ht]
  · intro h
    unfold decode_status
    rw [h]

/-- Witness for the C4 theorem at concrete inputs. -/
theorem decode_status_spec_witness :
    decode_status [SaxEvent.endE "return" "tRuE"] = Except.ok true ∧
    decode_status [SaxEvent.endE "return" "FALSE"] = Except.ok false ∧
    decode_status [SaxEvent.startE "x"] = Except.error Err.MissingStatusKind := by
  refine ⟨?_, ?_, ?_⟩
  · exact (decode_status_spec (NovaAdminClient.new "127.0.0.1" "nova" "admin"
      "admin") [SaxEvent.endE "return" "tRuE"] "tRuE" "u" "r" "add" "p"
      Option.none).1 (by decide) (by decide)
  · exact (decode_status_spec (NovaAdminClient.new "127.0.0.1" "nova" "admin"
      "admin") [SaxEvent.endE "return" "FALSE"] "FALSE" "u" "r" "add" "p"
      Option.none).2.1 (by decide) (by decide)
  · exact (decode_status_spec (NovaAdminClient.new "127.0.0.1" "nova" "admin"
      "admin") [SaxEvent.startE "x"] "t" "u" "r" "add" "p"
      Option.none).2.2.1 (by decide)

/-- Claim C5: a document of N `item` elements decodes to exactly N records in
document order, each populated only from the events between its own
boundaries, and a document with zero `item` elements decodes to the empty
sequence. -/
theorem decode_list_spec (blocks : List (List (String × String)))
    (init : Obj) (step : Obj → String → String → Obj) (events : List SaxEvent)
    (hb : ∀ b ∈ blocks, ∀ p ∈ b, p.1 ≠ "item")
    (he : ∀ e ∈ events, SaxEvent.tag e ≠ "item") :
    decode_list "item" init step (itemDoc blocks)
        = blocks.map (fun b =>
            decode_single init step (b.map fun p => SaxEvent.endE p.1 p.2)) ∧
    (decode_list "item" init step (itemDoc blocks)).length = blocks.length ∧
    decode_list "item" init step events = [] := by
  refine ⟨decode_list_itemDoc init step blocks hb, ?_,
    decode_list_go_no_item init step events he⟩
  rw [decode_list_itemDoc init step blocks hb]
  simp

/-- Witness for the C5 theorem at concrete inputs. -/
theorem decode_list_spec_witness :
    decode_list "item" HostInfo.init HostInfo.endElement
        (itemDoc [[("hostname", "h1")], [("hostname", "h2")]])
      = [decode_single HostInfo.init HostInfo.endElement
            [SaxEvent.endE "hostname" "h1"],
         decode_single HostInfo.init HostInfo.endElement
            [SaxEvent.endE "hostname" "h2"]] ∧
    decode_list "item" UserInfo.init UserInfo.endElement
        [SaxEvent.endE "username" "u"] = [] := by
  constructor
  · rw [(decode_list_spec [[("hostname", "h1")], [("hostname", "h2")]]
      HostInfo.init HostInfo.endElement [] (by decide) (by simp)).1]
    rfl
  · exact (decode_list_spec [] UserInfo.init UserInfo.endElement
      [SaxEvent.endE "username" "u"] (by simp) (by decide)).2.2

/-- Claim C6: base64-encoding an arbitrary byte sequence and decoding it
through the binary-field mapping (the `file` branch of `UserInfo.endElement`)
returns exactly the original bytes. -/
theorem b64_binary_roundtrip (bs : List Nat) (o : Obj) (h : ∀ x ∈ bs, x < 256) :
    b64decode (b64encode bs) = bs ∧
    getattr (UserInfo.endElement o "file" (String.mk (b64encode bs))) "file"
      = some (AttrValue.bytes bs) := by
  constructor
  · exact b64decode_b64encode bs h
  · have hstep : UserInfo.endElement o "file" (String.mk (b64encode bs))
        = setattr o "file"
            (AttrValue.bytes (b64decode (String.mk (b64encode bs)).data)) := by
      simp [UserInfo.endElement]
    rw [hstep, getattr_setattr_self]
    have hd : (String.mk (b64encode bs)).data = b64encode bs := rfl
    rw [hd, b64decode_b64encode bs h]

/-- Witness for the C6 theorem at concrete inputs, including non-UTF8-safe
bytes and the empty sequence. -/
theorem b64_binary_roundtrip_witness :
    b64decode (b64encode [255, 0, 254, 7]) = [255, 0, 254, 7] ∧
    b64decode (b64encode []) = [] := by
  exact ⟨(b64_binary_roundtrip [255, 0, 254, 7] [] (by decide)).1,
         (b64_binary_roundtrip [] [] (by decide)).1⟩

/-- Claim C7: `add_user_role` and `remove_user_role` are exactly the shared
`modify_user_role` operation at operation kinds `add` and `remove`, and
`modify_user_role` produces a status-shaped boolean result. -/
theorem role_ops_refinement (c : NovaAdminClient) (user role op : String)
    (project : Option String) (events : List SaxEvent) :
    add_user_role c user role project events
        = modify_user_role c user role project "add" events ∧
    remove_user_role c user role project events
        = modify_user_role c user role project "remove" events ∧
    (modify_user_role c user role project op events).value
        = decode_status events :=
  ⟨rfl, rfl, rfl⟩

/-- Claim C8: `get_zip` decodes the response as a single `UserRecord` and
returns only the binary blob stored under its `file` attribute. -/
theorem get_zip_returns_blob (c : NovaAdminClient) (name : String)
    (events : List SaxEvent) (v : String) (h : lastVal events "file" = some v) :
    (get_zip c name events).value
      = Except.ok (AttrValue.bytes (b64decode v.data)) := by
  have hc := getattr_decode_user_file events UserInfo.init
  rw [h] at hc
  have hval : getattr (decode_single UserInfo.init UserInfo.endElement events)
      "file" = some (AttrValue.bytes (b64decode v.data)) := hc
  simp only [get_zip]
  rw [hval]

/-- Witness for the C8 theorem at a concrete input. -/
theorem get_zip_returns_blob_witness :
    (get_zip (NovaAdminClient.new "127.0.0.1" "nova" "admin" "admin") "joe"
        [SaxEvent.endE "file" "QUJD"]).value
      = Except.ok (AttrValue.bytes (b64decode "QUJD".data)) := by
  exact get_zip_returns_blob _ "joe" _ "QUJD" (by decide)

/-- Claim C9: every facade operation leaves the client instance — controller
IP, region, credentials and the constructed admin transport — unchanged. -/
theorem facade_ops_preserve_client (c : NovaAdminClient) (events : List SaxEvent)
    (name user role op proj manager : String)
    (project description member_users : Option String) :
    (get_users c events).client = c ∧
    (get_user c name events).client = c ∧
    (has_user c name events).client = c ∧
    (create_user c name events).client = c ∧
    (delete_user c name events).client = c ∧
    (add_user_role c user role project events).client = c ∧
    (remove_user_role c user role project events).client = c ∧
    (modify_user_role c user role project op events).client = c ∧
    (get_projects c events).client = c ∧
    (get_project c name events).client = c ∧
    (create_project c name manager description member_users events).client = c ∧
    (delete_project c name events).client = c ∧
    (modify_project_user c user proj op events).client = c ∧
    (get_zip c name events).client = c ∧
    (get_hosts c events).client = c ∧
    (connection_for c name events).client = c :=
  ⟨rfl, rfl, rfl, rfl, rfl, rfl, rfl, rfl, rfl, rfl, rfl, rfl, rfl, rfl, rfl, rfl⟩

/-- Claim C10: a fresh `UserRecord` defines only the `connection`, `username`
and `endpoint` attributes, so when the response supplies no `file` element,
`get_zip` fails with the attribute-lookup error rather than returning an
absent value. -/
theorem get_zip_missing_file (c : NovaAdminClient) (name : String)
    (events : List SaxEvent) (h : lastVal events "file" = Option.none) :
    List.map Prod.fst UserInfo.init = ["connection", "username", "endpoint"] ∧
    getattr UserInfo.init "file" = Option.none ∧
    (get_zip c name events).value = Except.error Err.AttributeError := by
  refine ⟨rfl, rfl, ?_⟩
  have hc := getattr_decode_user_file events UserInfo.init
  rw [h] at hc
  have hval : getattr (decode_single UserInfo.init UserInfo.endElement events)
      "file" = Option.none := by
    unfold decode_single
    rw [hc]
    rfl
  simp only [get_zip]
  rw [hval]

/-- Witness for the C10 theorem at a concrete input. -/
theorem get_zip_missing_file_witness :
    (get_zip (NovaAdminClient.new "127.0.0.1" "nova" "admin" "admin") "joe"
        [SaxEvent.endE "username" "joe"]).value
      = Except.error Err.AttributeError := by
  exact (get_zip_missing_file _ "joe" _ (by decide)).2.2
